import Mathlib

/-!
Verification of the freight-calculator packing engines.

Shallow embedding of the 3D bin-packing code:
  * namespace Advanced : algorithms/advanced_packing.py
  * namespace Opt      : algorithms/optimized_packing.py
  * namespace Calc     : api/calculations.py (advanced_bin_packing)

Conventions of the embedding:
  * Python floats are embedded as exact rationals; the float constants
    0.1, 0.01, 0.5, 0.7 of the source are written as the exact rationals
    mkRat 1 10, mkRat 1 100, mkRat 1 2, mkRat 7 10, and so on.
  * Python's stable sort (list.sort / sorted) is embedded as a stable
    insertion sort; any two stable sorts by the same key agree extensionally.
  * Python's int() truncation on nonnegative values is the rational floor.
  * Python range(0, stop, step) is embedded by pyRange.
  * In-place mutation of item records is embedded by explicit state passing:
    the list of output items and the list of committed (placed) items are
    threaded through a fold.
-/

attribute [local semireducible] Rat.add Rat.sub Rat.mul Rat.inv Rat.ofScientific

/-- Exact rational division, the embedding of Python float division.  It is
the same function as division on the rationals, written via Rat.divInt so
concrete runs evaluate by kernel reduction (the Inv instance behind the
division notation is irreducible). -/
def pyDiv (a b : ℚ) : ℚ := Rat.divInt (a.num * (b.den : ℤ)) ((a.den : ℤ) * b.num)

/-- Truncation of a rational toward zero, as Python int() does. -/
def pyInt (q : ℚ) : ℤ := if 0 ≤ q then ⌊q⌋ else ⌈q⌉

/-- Embedding of Python range(0, stop, step) for a nonnegative stop. -/
def pyRange (stop : ℤ) (step : ℕ) : List ℕ :=
  (List.range ((stop.toNat + step - 1) / step)).map (· * step)

/-- Left-to-right concatenation map, the embedding of candidate generation
loops that append to a list. -/
def concatMap (f : α → List β) : List α → List β
  | [] => []
  | a :: as => f a ++ concatMap f as

/-- First mapped result of a left-to-right scan, the embedding of a loop
that returns on its first successful candidate. -/
def findFirst (f : α → Option β) : List α → Option β
  | [] => none
  | a :: as =>
    match f a with
    | some b => some b
    | none => findFirst f as

/-- Insertion of an element into a list, keeping it after every element it is
not strictly less than: the insertion step of a stable ascending sort. -/
def insertOrd (lt : α → α → Bool) (a : α) : List α → List α
  | [] => [a]
  | b :: bs => if lt a b then a :: b :: bs else b :: insertOrd lt a bs

/-- Stable ascending sort by the strict comparison lt, the embedding of
Python's stable list.sort / sorted. -/
def sortStable (lt : α → α → Bool) (l : List α) : List α :=
  l.foldl (fun acc x => insertOrd lt x acc) []

/-- Lexicographic strict order on coordinate triples by (z, y, x), the key
used by sorted(..., key=lambda pos: (pos[2], pos[1], pos[0])). -/
def posLt (p q : ℚ × ℚ × ℚ) : Bool :=
  decide (p.2.2 < q.2.2 ∨ (p.2.2 = q.2.2 ∧ (p.2.1 < q.2.1 ∨ (p.2.1 = q.2.1 ∧ p.1 < q.1))))

namespace Advanced

/-- Container3D of api/calculations.py: length, width, height in cm and a
maximum weight in kg. -/
structure Container3D where
  length : ℚ
  width : ℚ
  height : ℚ
  max_weight : ℚ
deriving DecidableEq, Repr

/-- CargoItem3D of api/calculations.py: one cargo specification. -/
structure CargoItem3D where
  id : String
  name : String
  length : ℚ
  width : ℚ
  height : ℚ
  weight : ℚ
  quantity : ℕ
  non_stackable : Bool
  non_rotatable : Bool
deriving DecidableEq, Repr

/-- PlacedItem3D of api/calculations.py: one unit item together with its
placement outcome fields. -/
structure PlacedItem3D where
  id : String
  name : String
  length : ℚ
  width : ℚ
  height : ℚ
  weight : ℚ
  quantity : ℕ
  non_stackable : Bool
  non_rotatable : Bool
  x : ℚ
  y : ℚ
  z : ℚ
  fitted : Bool
  rotated : Bool
deriving DecidableEq, Repr

/-- Orientation record of get_orientations_improved: an effective
(length, width, height) triple plus the rotated flag. -/
structure Orientation where
  length : ℚ
  width : ℚ
  height : ℚ
  rotated : Bool
deriving DecidableEq, Repr

/-- Placement record returned by find_best_position_improved. -/
structure Best where
  x : ℚ
  y : ℚ
  z : ℚ
  length : ℚ
  width : ℚ
  height : ℚ
  rotated : Bool
deriving DecidableEq, Repr

/-- Expansion of one CargoItem3D into its i-th unit item
(advanced_packing.py lines 15-31); the index i ranges over
range(quantity), and the derived id is "{id}_{i+1}" when quantity > 1. -/
def mkUnit (item : CargoItem3D) (i : ℕ) : PlacedItem3D :=
  { id := if item.quantity > 1 then item.id ++ "_" ++ Nat.repr (i + 1) else item.id
    name := if item.quantity > 1 then item.name ++ " #" ++ Nat.repr (i + 1) else item.name
    length := item.length
    width := item.width
    height := item.height
    weight := item.weight
    quantity := 1
    non_stackable := item.non_stackable
    non_rotatable := item.non_rotatable
    x := 0, y := 0, z := 0
    fitted := false
    rotated := false }

/-- Expansion of the quantity-bearing specs into individual unit items. -/
def expand_items (items : List CargoItem3D) : List PlacedItem3D :=
  concatMap (fun item => (List.range item.quantity).map (mkUnit item)) items

/-- Strict comparison by the sort key of advanced_packing.py lines 34-38:
(-volume, min-dim / max-dim, -weight), compared lexicographically. -/
def sortKeyLt (a b : PlacedItem3D) : Bool :=
  let va := a.length * a.width * a.height
  let vb := b.length * b.width * b.height
  let ra := pyDiv (min a.length (min a.width a.height)) (max a.length (max a.width a.height))
  let rb := pyDiv (min b.length (min b.width b.height)) (max b.length (max b.width b.height))
  decide (-va < -vb ∨ (-va = -vb ∧ (ra < rb ∨ (ra = rb ∧ -a.weight < -b.weight))))

/-- Stable multi-key sort of the expanded items (advanced_packing.py
lines 33-38). -/
def sort_improved (l : List PlacedItem3D) : List PlacedItem3D :=
  sortStable sortKeyLt l

/-- Orientation generation of get_orientations_improved
(advanced_packing.py lines 111-130). -/
def get_orientations_improved (item : PlacedItem3D) : List Orientation :=
  if item.non_rotatable then
    [⟨item.length, item.width, item.height, false⟩]
  else
    let base : List Orientation :=
      [⟨item.length, item.width, item.height, false⟩,
       ⟨item.width, item.length, item.height, true⟩]
    if ¬(item.length = item.width ∧ item.width = item.height) then
      base ++ [⟨item.height, item.width, item.length, true⟩,
               ⟨item.width, item.height, item.length, true⟩]
    else
      base

/-- Horizontal overlap along x between the candidate footprint and a placed
item, clamped at zero (the overlap_x local of advanced_packing.py
line 284). -/
def overlap_x (x L : ℚ) (e : PlacedItem3D) : ℚ :=
  max 0 (min (x + L) (e.x + e.length) - max x e.x)

/-- Horizontal overlap along y between the candidate footprint and a placed
item, clamped at zero (the overlap_y local of advanced_packing.py
line 285). -/
def overlap_y (y W : ℚ) (e : PlacedItem3D) : ℚ :=
  max 0 (min (y + W) (e.y + e.width) - max y e.y)

/-- Accumulating support-area loop of is_valid_position_improved
(advanced_packing.py lines 274-291), with its early termination once the
required support is reached. -/
def support_area_loop (x y z L W req : ℚ) : List PlacedItem3D → ℚ → ℚ
  | [], acc => acc
  | e :: rest, acc =>
    if e.non_stackable then support_area_loop x y z L W req rest acc
    else if |e.z + e.height - z| < (mkRat 1 10) then
      if 0 < overlap_x x L e ∧ 0 < overlap_y y W e then
        if req ≤ acc + overlap_x x L e * overlap_y y W e then
          acc + overlap_x x L e * overlap_y y W e
        else
          support_area_loop x y z L W req rest (acc + overlap_x x L e * overlap_y y W e)
      else support_area_loop x y z L W req rest acc
    else support_area_loop x y z L W req rest acc

/-- Position validation of is_valid_position_improved
(advanced_packing.py lines 249-295): container bounds, collision against
every placed item, and the 50 percent support check above ground level. -/
def is_valid_position_improved (c : Container3D) (placed : List PlacedItem3D)
    (pos : ℚ × ℚ × ℚ) (L W H : ℚ) (item : PlacedItem3D) : Bool :=
  if c.length < pos.1 + L ∨ c.width < pos.2.1 + W ∨ c.height < pos.2.2 + H then false
  else if placed.any (fun e =>
      decide (pos.1 < e.x + e.length ∧ e.x < pos.1 + L ∧
              pos.2.1 < e.y + e.width ∧ e.y < pos.2.1 + W ∧
              pos.2.2 < e.z + e.height ∧ e.z < pos.2.2 + H)) then false
  else if ((mkRat 1 10) : ℚ) < pos.2.2 then
    if item.non_stackable then false
    else decide (L * W * (mkRat 1 2) ≤
      support_area_loop pos.1 pos.2.1 pos.2.2 L W (L * W * (mkRat 1 2)) placed 0)
  else true

/-- Corner candidates of try_corner_placement (advanced_packing.py
lines 142-167): corners of existing items, top corners only when both items
are stackable, filtered to container bounds. -/
def corner_candidates (c : Container3D) (placed : List PlacedItem3D)
    (L W H : ℚ) (item : PlacedItem3D) : List (ℚ × ℚ × ℚ) :=
  concatMap (fun e =>
    let ground : List (ℚ × ℚ × ℚ) :=
      [(e.x + e.length, e.y, e.z),
       (e.x, e.y + e.width, e.z),
       (e.x + e.length, e.y + e.width, e.z)]
    let tops : List (ℚ × ℚ × ℚ) :=
      if ¬e.non_stackable ∧ ¬item.non_stackable then
        [(e.x, e.y, e.z + e.height),
         (e.x + e.length, e.y, e.z + e.height),
         (e.x, e.y + e.width, e.z + e.height),
         (e.x + e.length, e.y + e.width, e.z + e.height)]
      else []
    (ground ++ tops).filter (fun p =>
      decide (p.1 + L ≤ c.length ∧ p.2.1 + W ≤ c.width ∧ p.2.2 + H ≤ c.height)))
    placed

/-- Corner placement strategy of try_corner_placement (advanced_packing.py
lines 132-176). -/
def try_corner_placement (c : Container3D) (placed : List PlacedItem3D)
    (L W H : ℚ) (item : PlacedItem3D) : Option (ℚ × ℚ × ℚ) :=
  if placed.isEmpty then
    if is_valid_position_improved c placed (0, 0, 0) L W H item then some (0, 0, 0)
    else none
  else
    (sortStable posLt (corner_candidates c placed L W H item)).find?
      (fun p => is_valid_position_improved c placed p L W H item)

/-- Adjacency candidates of try_adjacent_placement_improved
(advanced_packing.py lines 183-209), generated from the 20 largest placed
items. -/
def adjacent_candidates (c : Container3D) (placed : List PlacedItem3D)
    (L W H : ℚ) (item : PlacedItem3D) : List (ℚ × ℚ × ℚ) :=
  let recent := (sortStable
    (fun a b => decide (b.length * b.width * b.height < a.length * a.width * a.height))
    placed).take 20
  concatMap (fun e =>
    (if decide (e.x + e.length + L ≤ c.length) then [(e.x + e.length, e.y, e.z)] else []) ++
    (if decide (e.y + e.width + W ≤ c.width) then [(e.x, e.y + e.width, e.z)] else []) ++
    (if ¬e.non_stackable ∧ ¬item.non_stackable ∧ decide (e.z + e.height + H ≤ c.height) then
      [(e.x, e.y, e.z + e.height)] else []) ++
    (if decide (L ≤ e.x) then [(e.x - L, e.y, e.z)] else []) ++
    (if decide (W ≤ e.y) then [(e.x, e.y - W, e.z)] else []))
    recent

/-- Adjacent placement strategy of try_adjacent_placement_improved
(advanced_packing.py lines 178-218). -/
def try_adjacent_placement_improved (c : Container3D) (placed : List PlacedItem3D)
    (L W H : ℚ) (item : PlacedItem3D) : Option (ℚ × ℚ × ℚ) :=
  (sortStable posLt (adjacent_candidates c placed L W H item)).find?
    (fun p => is_valid_position_improved c placed p L W H item)

/-- Grid positions swept by try_fine_grid_placement (advanced_packing.py
lines 234-237), z layer by layer, then y, then x. -/
def grid_positions (c : Container3D) (L W H : ℚ) : List (ℚ × ℚ × ℚ) :=
  let step_x := (pyInt (max 3 (min (pyDiv L 3) (pyDiv c.length 20)))).toNat
  let step_y := (pyInt (max 3 (min (pyDiv W 3) (pyDiv c.width 20)))).toNat
  let step_z := (pyInt (max 2 (min (pyDiv H 3) (pyDiv c.height 25)))).toNat
  concatMap (fun (zn : ℕ) =>
    concatMap (fun (yn : ℕ) =>
      (pyRange (pyInt (c.length - L) + 1) step_x).map (fun (xn : ℕ) =>
        ((xn : ℚ), (yn : ℚ), (zn : ℚ))))
      (pyRange (pyInt (c.width - W) + 1) step_y))
    (pyRange (pyInt (c.height - H) + 1) step_z)

/-- Fine grid placement strategy of try_fine_grid_placement
(advanced_packing.py lines 220-247), capped at 800 iterations. -/
def try_fine_grid_placement (c : Container3D) (placed : List PlacedItem3D)
    (L W H : ℚ) (item : PlacedItem3D) : Option (ℚ × ℚ × ℚ) :=
  ((grid_positions c L W H).take 800).find?
    (fun p => is_valid_position_improved c placed p L W H item)

/-- Position search of find_best_position_improved (advanced_packing.py
lines 67-109): each orientation in order, the three strategies in order. -/
def find_best_position_improved (c : Container3D) (placed : List PlacedItem3D)
    (item : PlacedItem3D) : Option Best :=
  findFirst (fun o =>
    if c.length < o.length ∨ c.width < o.width ∨ c.height < o.height then none
    else
      match try_corner_placement c placed o.length o.width o.height item with
      | some p => some ⟨p.1, p.2.1, p.2.2, o.length, o.width, o.height, o.rotated⟩
      | none =>
        match try_adjacent_placement_improved c placed o.length o.width o.height item with
        | some p => some ⟨p.1, p.2.1, p.2.2, o.length, o.width, o.height, o.rotated⟩
        | none =>
          match try_fine_grid_placement c placed o.length o.width o.height item with
          | some p => some ⟨p.1, p.2.1, p.2.2, o.length, o.width, o.height, o.rotated⟩
          | none => none)
    (get_orientations_improved item)

/-- Commit of a found placement onto a unit item (advanced_packing.py
lines 46-53). -/
def place_item (item : PlacedItem3D) (b : Best) : PlacedItem3D :=
  { item with
    x := b.x, y := b.y, z := b.z
    length := b.length, width := b.width, height := b.height
    fitted := true, rotated := b.rotated }

/-- One iteration of the placement loop of advanced_3d_packing
(advanced_packing.py lines 42-58), on the state (output items so far,
placed items so far). -/
def packStep (c : Container3D) (st : List PlacedItem3D × List PlacedItem3D)
    (item : PlacedItem3D) : List PlacedItem3D × List PlacedItem3D :=
  match find_best_position_improved c st.2 item with
  | some b => (st.1 ++ [place_item item b], st.2 ++ [place_item item b])
  | none => (st.1 ++ [item], st.2)

/-- Packing engine advanced_3d_packing (advanced_packing.py lines 7-65):
expand, sort, place each item in order, return every unit item with its
final placement outcome. -/
def advanced_3d_packing (c : Container3D) (items : List CargoItem3D) :
    List PlacedItem3D :=
  ((sort_improved (expand_items items)).foldl (packStep c) ([], [])).1

end Advanced

namespace Opt

/-- Unit item of optimized_packing.py: a PlacedItem3D carrying the cached
item volume passed as the extra field _volume (line 36). -/
structure Item where
  id : String
  name : String
  length : ℚ
  width : ℚ
  height : ℚ
  weight : ℚ
  quantity : ℕ
  non_stackable : Bool
  non_rotatable : Bool
  x : ℚ
  y : ℚ
  z : ℚ
  fitted : Bool
  rotated : Bool
  _volume : ℚ
deriving DecidableEq, Repr

/-- Orientation record of get_orientations_hybrid. -/
structure Orientation where
  length : ℚ
  width : ℚ
  height : ℚ
  rotated : Bool
deriving DecidableEq, Repr

/-- Placement record returned by find_best_position_optimized. -/
structure Best where
  x : ℚ
  y : ℚ
  z : ℚ
  length : ℚ
  width : ℚ
  height : ℚ
  rotated : Bool
deriving DecidableEq, Repr

/-- Expansion of one CargoItem3D into its i-th unit item with the cached
volume (optimized_packing.py lines 18-37). -/
def mkUnit (item : Advanced.CargoItem3D) (i : ℕ) : Item :=
  { id := if item.quantity > 1 then item.id ++ "_" ++ Nat.repr (i + 1) else item.id
    name := if item.quantity > 1 then item.name ++ " #" ++ Nat.repr (i + 1) else item.name
    length := item.length
    width := item.width
    height := item.height
    weight := item.weight
    quantity := 1
    non_stackable := item.non_stackable
    non_rotatable := item.non_rotatable
    x := 0, y := 0, z := 0
    fitted := false
    rotated := false
    _volume := item.length * item.width * item.height }

/-- Expansion of the specs into individual unit items with cached volumes. -/
def expand_items (items : List Advanced.CargoItem3D) : List Item :=
  concatMap (fun item => (List.range item.quantity).map (mkUnit item)) items

/-- Strict filtering of apply_strict_volume_filter (optimized_packing.py
lines 133-157): sort by volume-to-surface efficiency descending, then keep
items greedily while their total volume stays within 85 percent of the
container volume.  Items that do not make the cut are dropped. -/
def apply_strict_volume_filter (items : List Item) (container_volume : ℚ) :
    List Item :=
  let withEff := items.map (fun item =>
    let surface := 2 * (item.length * item.width + item.length * item.height +
      item.width * item.height)
    (item, if 0 < surface then pyDiv item._volume surface else 0))
  let sortedEff := sortStable (fun a b => decide (b.2 < a.2)) withEff
  let target := container_volume * (mkRat 17 20)
  (sortedEff.foldl (fun (st : List Item × ℚ) ie =>
    if ie.1._volume + st.2 ≤ target then (st.1 ++ [ie.1], st.2 + ie.1._volume)
    else st) ([], 0)).1

/-- Dimensional pre-filter of volume_prefilter (optimized_packing.py
lines 90-131): split into dimensionally viable and oversized items, and
apply the strict volume filter when the volume ratio exceeds 0.95. -/
def volume_prefilter (items : List Item) (c : Advanced.Container3D)
    (container_volume : ℚ) : List Item × List Item :=
  let total := (items.map (fun i => i._volume)).sum
  let volume_ratio := pyDiv total container_volume
  let viable := items.filter (fun item =>
    let dims : List (ℚ × ℚ × ℚ) :=
      (item.length, item.width, item.height) ::
      (if ¬item.non_rotatable then
        [(item.width, item.length, item.height),
         (item.height, item.width, item.length),
         (item.width, item.height, item.length),
         (item.length, item.height, item.width),
         (item.height, item.length, item.width)]
      else [])
    dims.any (fun d => decide (d.1 ≤ c.length ∧ d.2.1 ≤ c.width ∧ d.2.2 ≤ c.height)))
  let oversized := (items.filter (fun item =>
    let dims : List (ℚ × ℚ × ℚ) :=
      (item.length, item.width, item.height) ::
      (if ¬item.non_rotatable then
        [(item.width, item.length, item.height),
         (item.height, item.width, item.length),
         (item.width, item.height, item.length),
         (item.length, item.height, item.width),
         (item.height, item.length, item.width)]
      else [])
    ¬dims.any (fun d => decide (d.1 ≤ c.length ∧ d.2.1 ≤ c.width ∧ d.2.2 ≤ c.height)))).map
    (fun item => { item with fitted := false })
  if (mkRat 19 20) < volume_ratio then
    (apply_strict_volume_filter viable container_volume, oversized)
  else
    (viable, oversized)

/-- Priority sort of smart_priority_sort (optimized_packing.py
lines 159-180): split at a volume threshold, large items by volume
descending, small items by the multi-key of the advanced sort. -/
def smart_priority_sort (items : List Item) : List Item :=
  let volume_threshold :=
    if items.isEmpty then 0
    else (sortStable (fun a b => decide (b < a)) (items.map (fun i => i._volume))).getD
      (min (items.length / 4) 20) 0
  let large := items.filter (fun i => decide (volume_threshold ≤ i._volume))
  let small := items.filter (fun i => decide (i._volume < volume_threshold))
  let largeSorted := sortStable (fun a b => decide (-a._volume < -b._volume)) large
  let smallSorted := sortStable (fun a b =>
    let ra := pyDiv (min a.length (min a.width a.height)) (max a.length (max a.width a.height))
    let rb := pyDiv (min b.length (min b.width b.height)) (max b.length (max b.width b.height))
    decide (-a._volume < -b._volume ∨ (-a._volume = -b._volume ∧
      (ra < rb ∨ (ra = rb ∧ -a.weight < -b.weight))))) small
  largeSorted ++ smallSorted

/-- Accumulating support-area loop of is_valid_position_simple
(optimized_packing.py lines 357-372); note that the level test here skips
an item when the distance exceeds 0.1, so equality at 0.1 still counts. -/
def support_area_loop_simple (x y z L W req : ℚ) : List Item → ℚ → ℚ
  | [], acc => acc
  | e :: rest, acc =>
    if e.non_stackable ∨ decide (((mkRat 1 10) : ℚ) < |e.z + e.height - z|) then
      support_area_loop_simple x y z L W req rest acc
    else
      let ox := max 0 (min (x + L) (e.x + e.length) - max x e.x)
      let oy := max 0 (min (y + W) (e.y + e.width) - max y e.y)
      if 0 < ox ∧ 0 < oy then
        let acc2 := acc + ox * oy
        if req ≤ acc2 then acc2 else support_area_loop_simple x y z L W req rest acc2
      else support_area_loop_simple x y z L W req rest acc

/-- Position validation of is_valid_position_simple (optimized_packing.py
lines 327-376): bounds, collision with a quick distance pre-check, and the
50 percent support check above ground level. -/
def is_valid_position_simple (c : Advanced.Container3D) (placed : List Item)
    (pos : ℚ × ℚ × ℚ) (L W H : ℚ) (item : Item) : Bool :=
  if c.length < pos.1 + L ∨ c.width < pos.2.1 + W ∨ c.height < pos.2.2 + H then false
  else if placed.any (fun e =>
      decide (|e.x - pos.1| < e.length + L ∧ |e.y - pos.2.1| < e.width + W ∧
              |e.z - pos.2.2| < e.height + H) &&
      decide (pos.1 < e.x + e.length ∧ e.x < pos.1 + L ∧
              pos.2.1 < e.y + e.width ∧ e.y < pos.2.1 + W ∧
              pos.2.2 < e.z + e.height ∧ e.z < pos.2.2 + H)) then false
  else if ((mkRat 1 10) : ℚ) < pos.2.2 then
    if item.non_stackable then false
    else decide (L * W * (mkRat 1 2) ≤
      support_area_loop_simple pos.1 pos.2.1 pos.2.2 L W (L * W * (mkRat 1 2)) placed 0)
  else true

/-- Orientation generation of get_orientations_hybrid (optimized_packing.py
lines 313-325).  For a rotatable item the third list element is the Python
conditional expression on line 323-325, which evaluates to None when the
aspect ratio is at most 2; the None stays in the list. -/
def get_orientations_hybrid (item : Item) : List (Option Orientation) :=
  if item.non_rotatable then
    [some ⟨item.length, item.width, item.height, false⟩]
  else
    [some ⟨item.length, item.width, item.height, false⟩,
     some ⟨item.width, item.length, item.height, true⟩,
     if 2 < pyDiv (max item.length (max item.width item.height))
         (min item.length (min item.width item.height)) then
       some ⟨item.height, item.width, item.length, true⟩
     else none]

/-- Adjacent placement strategy of try_adjacent_placement_optimized
(optimized_packing.py lines 217-258), generated from the 10 most recently
placed items. -/
def try_adjacent_placement_optimized (c : Advanced.Container3D) (placed : List Item)
    (L W H : ℚ) (item : Item) : Option (ℚ × ℚ × ℚ) :=
  if placed.isEmpty then
    if is_valid_position_simple c placed (0, 0, 0) L W H item then some (0, 0, 0)
    else none
  else
    let recent := placed.drop (placed.length - min 10 placed.length)
    let cands := concatMap (fun e =>
      (([(e.x + e.length, e.y, e.z), (e.x, e.y + e.width, e.z)] :
          List (ℚ × ℚ × ℚ)) ++
        (if ¬e.non_stackable ∧ ¬item.non_stackable ∧
            decide (e.z + e.height + H ≤ c.height) then
          [(e.x, e.y, e.z + e.height)] else [])).filter (fun p =>
        decide (p.1 + L ≤ c.length ∧ p.2.1 + W ≤ c.width ∧ p.2.2 + H ≤ c.height)))
      recent
    (sortStable posLt cands).find?
      (fun p => is_valid_position_simple c placed p L W H item)

/-- Step sizes of calculate_adaptive_grid_density (optimized_packing.py
lines 260-283). -/
def calculate_adaptive_grid_density (remaining_volume : ℚ)
    (c : Advanced.Container3D) (L W H : ℚ) : ℚ × ℚ × ℚ :=
  let container_volume := c.length * c.width * c.height
  let volume_ratio := pyDiv remaining_volume container_volume
  let step_factor : ℚ :=
    if (mkRat 1 2) < volume_ratio then (mkRat 1 2)
    else if (mkRat 1 5) < volume_ratio then (mkRat 3 10)
    else (mkRat 1 5)
  (max 5 (L * step_factor), max 5 (W * step_factor), max 3 (H * step_factor))

/-- Grid placement of try_adaptive_grid_placement (optimized_packing.py
lines 285-311), capped at 1000 iterations. -/
def try_adaptive_grid_placement (c : Advanced.Container3D) (placed : List Item)
    (L W H : ℚ) (item : Item) (grid : ℚ × ℚ × ℚ) : Option (ℚ × ℚ × ℚ) :=
  let step_x := (pyInt grid.1).toNat
  let step_y := (pyInt grid.2.1).toNat
  let step_z := (pyInt grid.2.2).toNat
  let positions := concatMap (fun (zn : ℕ) =>
    concatMap (fun (yn : ℕ) =>
      (pyRange (pyInt (c.length - L) + 1) step_x).map (fun (xn : ℕ) =>
        ((xn : ℚ), (yn : ℚ), (zn : ℚ))))
      (pyRange (pyInt (c.width - W) + 1) step_y))
    (pyRange (pyInt (c.height - H) + 1) step_z)
  (positions.take 1000).find?
    (fun p => is_valid_position_simple c placed p L W H item)

/-- Orientation loop of find_best_position_optimized (optimized_packing.py
lines 182-215).  Subscripting a None orientation is a Python TypeError,
embedded as an error result. -/
def fbpo_loop (c : Advanced.Container3D) (placed : List Item) (item : Item)
    (remaining_volume : ℚ) : List (Option Orientation) → Except Unit (Option Best)
  | [] => .ok none
  | none :: _ => .error ()
  | some o :: rest =>
    if c.length < o.length ∨ c.width < o.width ∨ c.height < o.height then
      fbpo_loop c placed item remaining_volume rest
    else
      match try_adjacent_placement_optimized c placed o.length o.width o.height item with
      | some p => .ok (some ⟨p.1, p.2.1, p.2.2, o.length, o.width, o.height, o.rotated⟩)
      | none =>
        match try_adaptive_grid_placement c placed o.length o.width o.height item
          (calculate_adaptive_grid_density remaining_volume c o.length o.width o.height) with
        | some p => .ok (some ⟨p.1, p.2.1, p.2.2, o.length, o.width, o.height, o.rotated⟩)
        | none => fbpo_loop c placed item remaining_volume rest

/-- Position search of find_best_position_optimized (optimized_packing.py
lines 182-215). -/
def find_best_position_optimized (c : Advanced.Container3D) (placed : List Item)
    (item : Item) (remaining_volume : ℚ) : Except Unit (Option Best) :=
  fbpo_loop c placed item remaining_volume (get_orientations_hybrid item)

/-- Commit of a found placement onto a unit item (optimized_packing.py
lines 60-68). -/
def place_item (item : Item) (b : Best) : Item :=
  { item with
    x := b.x, y := b.y, z := b.z
    length := b.length, width := b.width, height := b.height
    fitted := true, rotated := b.rotated }

/-- Placement loop of volume_optimized_3d_packing (optimized_packing.py
lines 52-76), with the early-termination break when the remaining volume
drops below 40 percent of the next item volume.  Returns the viable list
after in-place mutation together with the placed list, or the propagated
error. -/
def optLoop (c : Advanced.Container3D) (placed : List Item) (remaining_volume : ℚ) :
    List Item → Except Unit (List Item × List Item)
  | [] => .ok ([], placed)
  | item :: rest =>
    if remaining_volume < item._volume * (mkRat 2 5) then .ok (item :: rest, placed)
    else
      match find_best_position_optimized c placed item remaining_volume with
      | .error e => .error e
      | .ok none =>
        match optLoop c placed remaining_volume rest with
        | .error e => .error e
        | .ok r => .ok (item :: r.1, r.2)
      | .ok (some b) =>
        let item2 := place_item item b
        match optLoop c (placed ++ [item2]) (remaining_volume - item._volume) rest with
        | .error e => .error e
        | .ok r => .ok (item2 :: r.1, r.2)

/-- Packing engine volume_optimized_3d_packing (optimized_packing.py
lines 7-88): expand, pre-filter, priority-sort, place with volume
tracking, then return placed plus unfitted viable plus oversized items.
A Python exception during the run is an error result. -/
def volume_optimized_3d_packing (c : Advanced.Container3D)
    (items : List Advanced.CargoItem3D) : Except Unit (List Item) :=
  let container_volume := c.length * c.width * c.height
  let individual := expand_items items
  let pre := volume_prefilter individual c container_volume
  let viable := smart_priority_sort pre.1
  match optLoop c [] container_volume viable with
  | .error e => .error e
  | .ok r => .ok (r.2 ++ r.1.filter (fun i => ¬i.fitted) ++ pre.2)

end Opt

namespace Calc

/-- Container of api/calculations.py (lines 41-45). -/
structure Container where
  length : ℚ
  width : ℚ
  height : ℚ
  max_weight : ℚ
deriving DecidableEq, Repr

/-- PlacedItem of api/calculations.py (lines 58-70): the unit-item record
used by advanced_bin_packing; it has no quantity and no rotated field. -/
structure PlacedItem where
  id : String
  name : String
  length : ℚ
  width : ℚ
  height : ℚ
  weight : ℚ
  x : ℚ
  y : ℚ
  z : ℚ
  fitted : Bool
  non_stackable : Bool
  non_rotatable : Bool
deriving DecidableEq, Repr

/-- Scored candidate record of find_best_position (calculations.py
lines 326-330). -/
structure Candidate where
  item : PlacedItem
  priority : ℚ
  touching_items : ℕ
deriving DecidableEq, Repr

/-- Overlap test of calculations.py lines 216-225: boxes overlap when they
intersect by more than the 0.01 tolerance on every axis. -/
def overlaps (a b : PlacedItem) : Bool :=
  if b.x + b.length - (mkRat 1 100) ≤ a.x ∨ a.x + a.length ≤ b.x + (mkRat 1 100) ∨
     b.y + b.width - (mkRat 1 100) ≤ a.y ∨ a.y + a.width ≤ b.y + (mkRat 1 100) ∨
     b.z + b.height - (mkRat 1 100) ≤ a.z ∨ a.z + a.height ≤ b.z + (mkRat 1 100) then false
  else true

/-- Support area accumulated by find_best_position (calculations.py
lines 290-302): total overlap with placed items whose top face is at the
candidate z within 0.1 tolerance, skipping non_stackable supporters. -/
def support_area_calc (placed : List PlacedItem) (x y z L W : ℚ) : ℚ :=
  (placed.map (fun p =>
    if ¬p.non_stackable ∧ |p.z + p.height - z| < (mkRat 1 10) then
      let ox := min (x + L) (p.x + p.length) - max x p.x
      let oy := min (y + W) (p.y + p.width) - max y p.y
      if 0 < ox ∧ 0 < oy then ox * oy else 0
    else 0)).sum

/-- Count of flush-touching placed items (calculations.py lines 307-321). -/
def touching_count (placed : List PlacedItem) (x y z L W H : ℚ) : ℕ :=
  (placed.filter (fun p =>
    let tx := |p.x + p.length - x| < (mkRat 1 10) ∨ |x + L - p.x| < (mkRat 1 10)
    let ty := |p.y + p.width - y| < (mkRat 1 10) ∨ |y + W - p.y| < (mkRat 1 10)
    let tz := |p.z + p.height - z| < (mkRat 1 10) ∨ |z + H - p.z| < (mkRat 1 10)
    let ax := x < p.x + p.length ∧ p.x < x + L
    let ay := y < p.y + p.width ∧ p.y < y + W
    let az := z < p.z + p.height ∧ p.z < z + H
    decide ((tx ∧ ay ∧ az) ∨ (ty ∧ ax ∧ az) ∨ (tz ∧ ax ∧ ay)))).length

/-- Test-item construction of find_best_position (calculations.py
lines 266-273 and 342-348). -/
def test_item (item : PlacedItem) (L W H x y z : ℚ) : PlacedItem :=
  { id := item.id, name := item.name, weight := item.weight
    length := L, width := W, height := H
    x := x, y := y, z := z, fitted := true
    non_stackable := item.non_stackable, non_rotatable := item.non_rotatable }

/-- Validation and scoring of one adjacency candidate position
(calculations.py lines 263-330): bounds, collision, the 70 percent support
check for stacked positions, then the adjacency-scored priority. -/
def adjacent_candidate (c : Container) (placed : List PlacedItem)
    (item : PlacedItem) (L W H : ℚ) (pos : ℚ × ℚ × ℚ) : Option Candidate :=
  let x := pos.1
  let y := pos.2.1
  let z := pos.2.2
  let t := test_item item L W H x y z
  if c.length < x + L ∨ c.width < y + W ∨ c.height < z + H then none
  else if placed.any (fun p => overlaps t p) then none
  else if 0 < z ∧ item.non_stackable then none
  else if 0 < z ∧ decide (support_area_calc placed x y z L W < L * W * (mkRat 7 10)) then none
  else
    let touching := touching_count placed x y z L W H
    some ⟨t, -(touching * 1000 : ℚ) + z * 100 + y * 10 + x, touching⟩

/-- Adjacency positions of find_best_position (calculations.py
lines 231-261): the origin when nothing is placed, otherwise right, front,
and, when stacking is allowed, top of each placed item. -/
def adjacent_positions (c : Container) (placed : List PlacedItem)
    (item : PlacedItem) (L W H : ℚ) : List (ℚ × ℚ × ℚ) :=
  if placed.isEmpty then [(0, 0, 0)]
  else
    concatMap (fun e =>
      (if decide (e.x + e.length + L ≤ c.length) then [(e.x + e.length, e.y, e.z)] else []) ++
      (if decide (e.y + e.width + W ≤ c.width) then [(e.x, e.y + e.width, e.z)] else []) ++
      (if ¬e.non_stackable ∧ ¬item.non_stackable ∧
          decide (e.z + e.height + H ≤ c.height) then
        [(e.x, e.y, e.z + e.height)] else []))
      placed

/-- Grid-search candidates of the fallback in find_best_position
(calculations.py lines 332-362): every grid cell whose test item collides
with nothing, with only the non_stackable ground rule checked. -/
def grid_candidates (c : Container) (placed : List PlacedItem)
    (item : PlacedItem) (L W H : ℚ) : List Candidate :=
  let step := max 1 (pyDiv (min L (min W H)) 4)
  let stepN := max 1 (pyInt step).toNat
  let cells := concatMap (fun zn =>
    concatMap (fun yn =>
      (pyRange (pyInt (c.length - L) + 1) stepN).map (fun xn => (xn, yn, zn)))
      (pyRange (pyInt (c.width - W) + 1) stepN))
    (pyRange (pyInt (c.height - H) + 1) stepN)
  cells.filterMap (fun cell =>
    let x : ℚ := cell.1
    let y : ℚ := cell.2.1
    let z : ℚ := cell.2.2
    let t := test_item item L W H x y z
    if placed.any (fun p => overlaps t p) then none
    else if 0 < cell.2.2 ∧ item.non_stackable then none
    else some ⟨t, ((cell.2.2 * 100 + cell.2.1 * 10 + cell.1 : ℕ) : ℚ), 0⟩)

/-- Position search of find_best_position (calculations.py lines 227-369):
adjacency candidates, the grid fallback when none validate, then the
minimum-priority candidate under a stable sort. -/
def find_best_position (c : Container) (placed : List PlacedItem)
    (item : PlacedItem) (L W H : ℚ) : Option PlacedItem :=
  let adjCands := (adjacent_positions c placed item L W H).filterMap
    (adjacent_candidate c placed item L W H)
  let cands := if adjCands.isEmpty then grid_candidates c placed item L W H else adjCands
  match sortStable (fun a b => decide (a.priority < b.priority)) cands with
  | [] => none
  | cand :: _ => some cand.item

/-- Orientation loop of advanced_bin_packing (calculations.py
lines 372-390): the original orientation, plus the length-width swap for
rotatable items, first orientation that fits and yields a position. -/
def best_for (c : Container) (placed : List PlacedItem) (item : PlacedItem) :
    Option PlacedItem :=
  let orientations : List (ℚ × ℚ × ℚ) :=
    if item.non_rotatable then [(item.length, item.width, item.height)]
    else [(item.length, item.width, item.height), (item.width, item.length, item.height)]
  findFirst (fun d =>
    if decide (d.1 ≤ c.length ∧ d.2.1 ≤ c.width ∧ d.2.2 ≤ c.height) then
      find_best_position c placed item d.1 d.2.1 d.2.2
    else none)
    orientations

/-- In-place update of the first item with a matching id (calculations.py
lines 394-404). -/
def update_first (l : List PlacedItem) (b : PlacedItem) : List PlacedItem :=
  match l with
  | [] => []
  | a :: rest =>
    if a.id = b.id then
      { a with x := b.x, y := b.y, z := b.z
               length := b.length, width := b.width, height := b.height
               fitted := true } :: rest
    else a :: update_first rest b

/-- Indexed placement loop of advanced_bin_packing (calculations.py
lines 371-404) over the mutable sorted item list. -/
def calcLoop (c : Container) : ℕ → ℕ → List PlacedItem → List PlacedItem →
    List PlacedItem
  | 0, _, items, _ => items
  | fuel + 1, i, items, placed =>
    match items.get? i with
    | none => items
    | some item =>
      match best_for c placed item with
      | some b => calcLoop c fuel (i + 1) (update_first items b) (placed ++ [b])
      | none => calcLoop c fuel (i + 1) items placed

/-- Packing function advanced_bin_packing (calculations.py lines 207-406):
sort by volume descending, place each item, return the mutated sorted
list. -/
def advanced_bin_packing (c : Container) (items : List PlacedItem) :
    List PlacedItem :=
  let sorted_items := sortStable
    (fun a b => decide (b.length * b.width * b.height < a.length * a.width * a.height))
    items
  calcLoop c sorted_items.length 0 sorted_items []

end Calc

namespace Advanced

/-- Nonnegative effective dimensions of a unit item. -/
def DimNonneg (p : PlacedItem3D) : Prop :=
  0 ≤ p.length ∧ 0 ≤ p.width ∧ 0 ≤ p.height

/-- Nonnegative placement coordinates of a unit item. -/
def PosNonneg (p : PlacedItem3D) : Prop :=
  0 ≤ p.x ∧ 0 ≤ p.y ∧ 0 ≤ p.z

/-- Containment of a unit item box inside the container box. -/
def InBounds (c : Container3D) (p : PlacedItem3D) : Prop :=
  p.x + p.length ≤ c.length ∧ p.y + p.width ≤ c.width ∧ p.z + p.height ≤ c.height

/-- Open-box intersection of two item boxes: the two axis-aligned boxes
overlap with positive volume.  This is the collision condition tested by
is_valid_position_improved (advanced_packing.py lines 263-265). -/
def Overlap (a b : PlacedItem3D) : Prop :=
  a.x < b.x + b.length ∧ b.x < a.x + a.length ∧
  a.y < b.y + b.width ∧ b.y < a.y + a.width ∧
  a.z < b.z + b.height ∧ b.z < a.z + a.height

/-- Overlap test of calculations.py lines 216-225 transcribed onto the
advanced engine's item record: true when the boxes overlap by more than
the 0.01 numerical tolerance on every axis. -/
def overlapsTol (a b : PlacedItem3D) : Bool :=
  if b.x + b.length - (mkRat 1 100) ≤ a.x ∨ a.x + a.length ≤ b.x + (mkRat 1 100) ∨
     b.y + b.width - (mkRat 1 100) ≤ a.y ∨ a.y + a.width ≤ b.y + (mkRat 1 100) ∨
     b.z + b.height - (mkRat 1 100) ≤ a.z ∨ a.z + a.height ≤ b.z + (mkRat 1 100) then false
  else true

/-- Support contribution of one placed item to a candidate footprint at
height z: its horizontal overlap area when its top face is at z within the
0.1 tolerance and it is not non_stackable, else zero. -/
def supportTerm (x y z L W : ℚ) (e : PlacedItem3D) : ℚ :=
  if ¬e.non_stackable ∧ |e.z + e.height - z| < (mkRat 1 10) then
    if 0 < overlap_x x L e ∧ 0 < overlap_y y W e then
      overlap_x x L e * overlap_y y W e
    else 0
  else 0

/-- Total support area below a candidate footprint at height z, summed over
a list of placed items. -/
def totalSupport (placed : List PlacedItem3D) (x y z L W : ℚ) : ℚ :=
  (placed.map (supportTerm x y z L W)).sum

/-- Support invariant for one item against a list of placed items: above
the 0.1 ground tolerance the item is stackable and the support from
non-non_stackable items at its level covers half its footprint. -/
def Supported (placed : List PlacedItem3D) (p : PlacedItem3D) : Prop :=
  (mkRat 1 10) < p.z → p.non_stackable = false ∧
    p.length * p.width * (mkRat 1 2) ≤ totalSupport placed p.x p.y p.z p.length p.width

/-- Coordinate and dimension sanity of a placed-item registry. -/
def PlacedCoordsOK (placed : List PlacedItem3D) : Prop :=
  ∀ p ∈ placed, PosNonneg p ∧ DimNonneg p

/-- Full layout invariant of a placed-item registry: pairwise strict
non-overlap, and every item fitted, inside the container, with
nonnegative coordinates and dimensions, and supported. -/
def Good (c : Container3D) (placed : List PlacedItem3D) : Prop :=
  placed.Pairwise (fun a b => ¬Overlap a b) ∧
  ∀ p ∈ placed, p.fitted = true ∧ DimNonneg p ∧ PosNonneg p ∧
    InBounds c p ∧ Supported placed p

end Advanced

namespace Scen

/-- Test container 10 x 10 x 10. -/
def c10 : Advanced.Container3D := ⟨10, 10, 10, 50000⟩

/-- Spec of two 5-cubes. -/
def specBox : Advanced.CargoItem3D := ⟨"box", "Box", 5, 5, 5, 1, 2, false, false⟩

/-- Spec of two full-footprint slabs, which the engine stacks. -/
def specSlab : Advanced.CargoItem3D := ⟨"slab", "Slab", 10, 10, 2, 1, 2, false, false⟩

/-- Non-rotatable spec. -/
def specNR : Advanced.CargoItem3D := ⟨"nr", "NR", 4, 6, 5, 1, 1, false, true⟩

/-- Oversized spec that fits in no orientation. -/
def specBig : Advanced.CargoItem3D := ⟨"big", "Big", 20, 20, 20, 1, 1, false, false⟩

/-- Container with a 1 kg weight limit. -/
def cW : Advanced.Container3D := ⟨10, 10, 10, 1⟩

/-- A 100 kg item for the weight-limit scenario. -/
def specHeavy : Advanced.CargoItem3D := ⟨"heavy", "Heavy", 5, 5, 5, 100, 1, false, false⟩

/-- Spec pair with equal volumes and different aspect ratios: a cube and an
elongated box. -/
def uCube : Advanced.PlacedItem3D :=
  ⟨"cube", "Cube", 4, 4, 4, 1, 1, false, false, 0, 0, 0, false, false⟩

/-- Elongated 2 x 4 x 8 box of the same volume as uCube. -/
def uLong : Advanced.PlacedItem3D :=
  ⟨"long", "Long", 2, 4, 8, 1, 1, false, false, 0, 0, 0, false, false⟩

/-- Two 8-cubes requested in a 10-container: total volume ratio 1.024
triggers the strict volume filter of the optimized engine. -/
def specS : Advanced.CargoItem3D := ⟨"s", "S", 8, 8, 8, 1, 2, false, false⟩

/-- Container 12 x 12 x 8 for the orientation-crash scenario. -/
def cErr : Advanced.Container3D := ⟨12, 12, 8, 50000⟩

/-- Rotatable 7 x 7 x 12 item: too tall in its first two orientations, with
aspect ratio 12/7 below 2, so get_orientations_hybrid ends with None. -/
def specE : Advanced.CargoItem3D := ⟨"e", "E", 7, 7, 12, 1, 1, false, false⟩

/-- Container 60 x 60 x 60 for the floating-placement scenario. -/
def cC : Calc.Container := ⟨60, 60, 60, 50000⟩

/-- Non-stackable slab covering the whole container floor. -/
def itemA : Calc.PlacedItem := ⟨"A", "A", 60, 60, 20, 5, 0, 0, 0, false, true, false⟩

/-- Stackable 40-cube, which the grid fallback places on top of itemA. -/
def itemB : Calc.PlacedItem := ⟨"B", "B", 40, 40, 40, 5, 0, 0, 0, false, false, false⟩

/-- Spec whose plain id already looks like a derived id. -/
def specA1 : Advanced.CargoItem3D := ⟨"a_1", "A1", 3, 3, 3, 1, 1, false, false⟩

/-- Spec with quantity 2 whose derived ids start at "a_1". -/
def specA : Advanced.CargoItem3D := ⟨"a", "A", 2, 2, 2, 1, 2, false, false⟩

/-- Underscore-free spec with quantity 1. -/
def specU : Advanced.CargoItem3D := ⟨"u", "U", 3, 3, 3, 1, 1, false, false⟩

/-- Underscore-free spec with quantity 2. -/
def specV : Advanced.CargoItem3D := ⟨"v", "V", 2, 2, 2, 1, 2, false, false⟩

/-- First 5-cube as the engine places it. -/
def box1 : Advanced.PlacedItem3D :=
  ⟨"box_1", "Box #1", 5, 5, 5, 1, 1, false, false, 0, 0, 0, true, false⟩

/-- Second 5-cube as the engine places it. -/
def box2 : Advanced.PlacedItem3D :=
  ⟨"box_2", "Box #2", 5, 5, 5, 1, 1, false, false, 5, 0, 0, true, false⟩

/-- Second slab as the engine stacks it at height 2. -/
def slab2 : Advanced.PlacedItem3D :=
  ⟨"slab_2", "Slab #2", 10, 10, 2, 1, 1, false, false, 0, 0, 2, true, false⟩

/-- The non-rotatable item as the engine places it. -/
def nrOut : Advanced.PlacedItem3D :=
  ⟨"nr", "NR", 4, 6, 5, 1, 1, false, true, 0, 0, 0, true, false⟩

/-- The oversized item as the engine reports it, unfitted. -/
def bigOut : Advanced.PlacedItem3D :=
  ⟨"big", "Big", 20, 20, 20, 1, 1, false, false, 0, 0, 0, false, false⟩

end Scen

/-- Membership in a concatenation map comes from some generator element. -/
theorem concatMap_mem {f : α → List β} {l : List α} {b : β}
    (h : b ∈ concatMap f l) : ∃ a ∈ l, b ∈ f a := by
  induction l with
  | nil => simp [concatMap] at h
  | cons a as ih =>
    simp only [concatMap, List.mem_append] at h
    rcases h with h | h
    · exact ⟨a, List.mem_cons_self a as, h⟩
    · obtain ⟨a', ha', hb⟩ := ih h
      exact ⟨a', List.mem_cons_of_mem a ha', hb⟩

/-- Length of a concatenation map. -/
theorem concatMap_length (f : α → List β) (l : List α) :
    (concatMap f l).length = (l.map (fun a => (f a).length)).sum := by
  induction l with
  | nil => rfl
  | cons a as ih => simp [concatMap, ih]

/-- A successful first-match scan comes from some list element. -/
theorem findFirst_eq_some {f : α → Option β} {l : List α} {b : β}
    (h : findFirst f l = some b) : ∃ a ∈ l, f a = some b := by
  induction l with
  | nil => simp [findFirst] at h
  | cons a as ih =>
    simp only [findFirst] at h
    rcases ha : f a with _ | b'
    · rw [ha] at h
      obtain ⟨a', ha', hb⟩ := ih h
      exact ⟨a', List.mem_cons_of_mem a ha', hb⟩
    · rw [ha] at h
      cases h
      exact ⟨a, List.mem_cons_self a as, ha⟩

/-- Ordered insertion is a permutation of consing. -/
theorem insertOrd_perm (lt : α → α → Bool) (a : α) (l : List α) :
    List.Perm (insertOrd lt a l) (a :: l) := by
  induction l with
  | nil => exact List.Perm.refl _
  | cons b bs ih =>
    simp only [insertOrd]
    by_cases h : lt a b
    · simp [h]
    · simp only [h, if_false]
      exact (ih.cons b).trans (List.Perm.swap a b bs)

/-- The insertion-sort fold permutes the accumulator and the input. -/
theorem sortStable_fold_perm (lt : α → α → Bool) (l acc : List α) :
    List.Perm (l.foldl (fun acc x => insertOrd lt x acc) acc) (acc ++ l) := by
  induction l generalizing acc with
  | nil => simp
  | cons x xs ih =>
    simp only [List.foldl_cons]
    refine (ih (insertOrd lt x acc)).trans ?_
    refine (((insertOrd_perm lt x acc).append_right xs).trans ?_)
    exact List.perm_middle.symm

/-- Stable sorting permutes its input. -/
theorem sortStable_perm (lt : α → α → Bool) (l : List α) :
    List.Perm (sortStable lt l) l := by
  simpa [sortStable] using sortStable_fold_perm lt l []

/-- Membership is preserved by stable sorting. -/
theorem mem_sortStable {lt : α → α → Bool} {l : List α} {a : α} :
    a ∈ sortStable lt l ↔ a ∈ l :=
  (sortStable_perm lt l).mem_iff

/-- Length is preserved by stable sorting. -/
theorem length_sortStable (lt : α → α → Bool) (l : List α) :
    (sortStable lt l).length = l.length :=
  (sortStable_perm lt l).length_eq

namespace Advanced

/-- Each support contribution is nonnegative. -/
theorem supportTerm_nonneg (x y z L W : ℚ) (e : PlacedItem3D) :
    0 ≤ supportTerm x y z L W e := by
  unfold supportTerm
  split
  · split
    · next h => exact le_of_lt (mul_pos h.1 h.2)
    · exact le_refl 0
  · exact le_refl 0

/-- Unfolding equation of supportTerm in its positive branch. -/
theorem supportTerm_pos_eq {x y z L W : ℚ} {e : PlacedItem3D}
    (h1 : ¬e.non_stackable = true) (h2 : |e.z + e.height - z| < (mkRat 1 10))
    (h3 : 0 < overlap_x x L e ∧ 0 < overlap_y y W e) :
    supportTerm x y z L W e = overlap_x x L e * overlap_y y W e := by
  unfold supportTerm
  rw [if_pos ⟨h1, h2⟩, if_pos h3]

/-- Total support is nonnegative. -/
theorem totalSupport_nonneg (placed : List PlacedItem3D) (x y z L W : ℚ) :
    0 ≤ totalSupport placed x y z L W := by
  refine List.sum_nonneg ?_
  intro q hq
  obtain ⟨e, _, rfl⟩ := List.mem_map.1 hq
  exact supportTerm_nonneg x y z L W e

/-- Total support over an extended registry. -/
theorem totalSupport_append (l l2 : List PlacedItem3D) (x y z L W : ℚ) :
    totalSupport (l ++ l2) x y z L W =
      totalSupport l x y z L W + totalSupport l2 x y z L W := by
  simp [totalSupport]

/-- Total support only grows when the registry is extended. -/
theorem totalSupport_mono (l l2 : List PlacedItem3D) (x y z L W : ℚ) :
    totalSupport l x y z L W ≤ totalSupport (l ++ l2) x y z L W := by
  rw [totalSupport_append]
  have := totalSupport_nonneg l2 x y z L W
  linarith

/-- The early-terminating support loop never exceeds the accumulator plus
the full support sum. -/
theorem support_area_loop_le (x y z L W req : ℚ) (l : List PlacedItem3D) (acc : ℚ) :
    support_area_loop x y z L W req l acc ≤ acc + totalSupport l x y z L W := by
  induction l generalizing acc with
  | nil => simp [support_area_loop, totalSupport]
  | cons e rest ih =>
    have hterm : 0 ≤ supportTerm x y z L W e := supportTerm_nonneg x y z L W e
    have htotr : 0 ≤ totalSupport rest x y z L W := totalSupport_nonneg rest x y z L W
    have htot : totalSupport (e :: rest) x y z L W =
        supportTerm x y z L W e + totalSupport rest x y z L W := by
      simp [totalSupport]
    rw [htot]
    show support_area_loop x y z L W req (e :: rest) acc ≤ _
    rw [support_area_loop]
    by_cases hns : e.non_stackable = true
    · rw [if_pos hns]
      have := ih acc
      linarith
    · rw [if_neg hns]
      by_cases hlev : |e.z + e.height - z| < (mkRat 1 10)
      · rw [if_pos hlev]
        by_cases hpos : 0 < overlap_x x L e ∧ 0 < overlap_y y W e
        · rw [if_pos hpos]
          have hterm' := supportTerm_pos_eq hns hlev hpos
          by_cases hreq : req ≤ acc + overlap_x x L e * overlap_y y W e
          · rw [if_pos hreq]
            linarith
          · rw [if_neg hreq]
            have := ih (acc + overlap_x x L e * overlap_y y W e)
            linarith
        · rw [if_neg hpos]
          have := ih acc
          linarith
      · rw [if_neg hlev]
        have := ih acc
        linarith

/-- When the support loop reports enough support, the full support sum is
enough. -/
theorem support_loop_implies_total (x y z L W req : ℚ) (l : List PlacedItem3D)
    (h : req ≤ support_area_loop x y z L W req l 0) :
    req ≤ totalSupport l x y z L W := by
  have := support_area_loop_le x y z L W req l 0
  linarith

end Advanced

namespace Advanced

/-- Open-box overlap is symmetric. -/
theorem Overlap_symm : Symmetric (fun a b : PlacedItem3D => ¬Overlap a b) := by
  intro a b h hba
  exact h ⟨hba.2.1, hba.1, hba.2.2.2.1, hba.2.2.1, hba.2.2.2.2.2, hba.2.2.2.2.1⟩

/-- Facts extracted from a successful position validation: container
bounds, no collision with any placed item, and the support condition when
above the ground tolerance. -/
theorem is_valid_elim {c : Container3D} {placed : List PlacedItem3D}
    {pos : ℚ × ℚ × ℚ} {L W H : ℚ} {item : PlacedItem3D}
    (h : is_valid_position_improved c placed pos L W H item = true) :
    (pos.1 + L ≤ c.length ∧ pos.2.1 + W ≤ c.width ∧ pos.2.2 + H ≤ c.height) ∧
    (∀ e ∈ placed, ¬(pos.1 < e.x + e.length ∧ e.x < pos.1 + L ∧
        pos.2.1 < e.y + e.width ∧ e.y < pos.2.1 + W ∧
        pos.2.2 < e.z + e.height ∧ e.z < pos.2.2 + H)) ∧
    ((mkRat 1 10) < pos.2.2 → item.non_stackable = false ∧
        L * W * (mkRat 1 2) ≤ totalSupport placed pos.1 pos.2.1 pos.2.2 L W) := by
  unfold is_valid_position_improved at h
  by_cases h1 : c.length < pos.1 + L ∨ c.width < pos.2.1 + W ∨ c.height < pos.2.2 + H
  · rw [if_pos h1] at h
    cases h
  · rw [if_neg h1] at h
    push_neg at h1
    by_cases h2 : placed.any (fun e =>
        decide (pos.1 < e.x + e.length ∧ e.x < pos.1 + L ∧
                pos.2.1 < e.y + e.width ∧ e.y < pos.2.1 + W ∧
                pos.2.2 < e.z + e.height ∧ e.z < pos.2.2 + H)) = true
    · rw [if_pos h2] at h
      cases h
    · rw [if_neg h2] at h
      have hcol : ∀ e ∈ placed, ¬(pos.1 < e.x + e.length ∧ e.x < pos.1 + L ∧
          pos.2.1 < e.y + e.width ∧ e.y < pos.2.1 + W ∧
          pos.2.2 < e.z + e.height ∧ e.z < pos.2.2 + H) := by
        intro e he hover
        exact h2 (List.any_eq_true.2 ⟨e, he, decide_eq_true hover⟩)
      refine ⟨⟨h1.1, h1.2.1, h1.2.2⟩, hcol, ?_⟩
      intro hz
      rw [if_pos hz] at h
      by_cases hns : item.non_stackable = true
      · rw [if_pos hns] at h
        cases h
      · rw [if_neg hns] at h
        refine ⟨Bool.eq_false_iff.2 hns, ?_⟩
        exact support_loop_implies_total _ _ _ _ _ _ placed (of_decide_eq_true h)

/-- Positions returned by the corner strategy validate. -/
theorem try_corner_valid {c : Container3D} {placed : List PlacedItem3D}
    {L W H : ℚ} {item : PlacedItem3D} {p : ℚ × ℚ × ℚ}
    (h : try_corner_placement c placed L W H item = some p) :
    is_valid_position_improved c placed p L W H item = true := by
  unfold try_corner_placement at h
  by_cases hemp : placed.isEmpty
  · rw [if_pos hemp] at h
    by_cases hv : is_valid_position_improved c placed (0, 0, 0) L W H item = true
    · rw [if_pos hv] at h
      cases h
      exact hv
    · rw [if_neg hv] at h
      cases h
  · rw [if_neg hemp] at h
    have hv := List.find?_some h
    exact hv

/-- Positions returned by the adjacency strategy validate. -/
theorem try_adjacent_valid {c : Container3D} {placed : List PlacedItem3D}
    {L W H : ℚ} {item : PlacedItem3D} {p : ℚ × ℚ × ℚ}
    (h : try_adjacent_placement_improved c placed L W H item = some p) :
    is_valid_position_improved c placed p L W H item = true := by
  have hv := List.find?_some h
  exact hv

/-- Positions returned by the grid strategy validate. -/
theorem try_grid_valid {c : Container3D} {placed : List PlacedItem3D}
    {L W H : ℚ} {item : PlacedItem3D} {p : ℚ × ℚ × ℚ}
    (h : try_fine_grid_placement c placed L W H item = some p) :
    is_valid_position_improved c placed p L W H item = true := by
  have hv := List.find?_some h
  exact hv

end Advanced

/-- Membership in a conditional singleton yields the condition and the
value. -/
theorem mem_ite_singleton {c : Prop} [Decidable c] {v p : α}
    (h : p ∈ (if c then [v] else [])) : c ∧ p = v := by
  split at h
  · next hc =>
    simp only [List.mem_singleton] at h
    exact ⟨hc, h⟩
  · simp at h

namespace Advanced

/-- Corner candidates have nonnegative coordinates over a sane registry. -/
theorem corner_candidates_nonneg {c : Container3D} {placed : List PlacedItem3D}
    {L W H : ℚ} {item : PlacedItem3D} {p : ℚ × ℚ × ℚ}
    (hok : PlacedCoordsOK placed)
    (hmem : p ∈ corner_candidates c placed L W H item) :
    0 ≤ p.1 ∧ 0 ≤ p.2.1 ∧ 0 ≤ p.2.2 := by
  obtain ⟨e, he, hp⟩ := concatMap_mem hmem
  obtain ⟨⟨hex, hey, hez⟩, hel, hew, heh⟩ := hok e he
  rw [List.mem_filter] at hp
  have hp2 := hp.1
  rw [List.mem_append] at hp2
  rcases hp2 with hg | ht
  · simp only [List.mem_cons, List.mem_singleton, List.not_mem_nil, or_false] at hg
    rcases hg with rfl | rfl | rfl
    · exact ⟨add_nonneg hex hel, hey, hez⟩
    · exact ⟨hex, add_nonneg hey hew, hez⟩
    · exact ⟨add_nonneg hex hel, add_nonneg hey hew, hez⟩
  · by_cases hcond : ¬e.non_stackable ∧ ¬item.non_stackable
    · rw [if_pos hcond] at ht
      simp only [List.mem_cons, List.mem_singleton, List.not_mem_nil, or_false] at ht
      rcases ht with rfl | rfl | rfl | rfl
      · exact ⟨hex, hey, add_nonneg hez heh⟩
      · exact ⟨add_nonneg hex hel, hey, add_nonneg hez heh⟩
      · exact ⟨hex, add_nonneg hey hew, add_nonneg hez heh⟩
      · exact ⟨add_nonneg hex hel, add_nonneg hey hew, add_nonneg hez heh⟩
    · rw [if_neg hcond] at ht
      simp at ht

/-- Adjacency candidates have nonnegative coordinates over a sane
registry. -/
theorem adjacent_candidates_nonneg {c : Container3D} {placed : List PlacedItem3D}
    {L W H : ℚ} {item : PlacedItem3D} {p : ℚ × ℚ × ℚ}
    (hok : PlacedCoordsOK placed)
    (hmem : p ∈ adjacent_candidates c placed L W H item) :
    0 ≤ p.1 ∧ 0 ≤ p.2.1 ∧ 0 ≤ p.2.2 := by
  obtain ⟨e, he, hp⟩ := concatMap_mem hmem
  have he' : e ∈ placed := mem_sortStable.1 (List.mem_of_mem_take he)
  obtain ⟨⟨hex, hey, hez⟩, hel, hew, heh⟩ := hok e he'
  rw [List.mem_append] at hp
  rcases hp with hp | hp5
  rw [List.mem_append] at hp
  rcases hp with hp | hp4
  rw [List.mem_append] at hp
  rcases hp with hp | hp3
  rw [List.mem_append] at hp
  rcases hp with hp1 | hp2
  · obtain ⟨_, rfl⟩ := mem_ite_singleton hp1
    exact ⟨add_nonneg hex hel, hey, hez⟩
  · obtain ⟨_, rfl⟩ := mem_ite_singleton hp2
    exact ⟨hex, add_nonneg hey hew, hez⟩
  · obtain ⟨_, rfl⟩ := mem_ite_singleton hp3
    exact ⟨hex, hey, add_nonneg hez heh⟩
  · obtain ⟨hc, rfl⟩ := mem_ite_singleton hp4
    have : (L : ℚ) ≤ e.x := of_decide_eq_true hc
    exact ⟨sub_nonneg.2 this, hey, hez⟩
  · obtain ⟨hc, rfl⟩ := mem_ite_singleton hp5
    have : (W : ℚ) ≤ e.y := of_decide_eq_true hc
    exact ⟨hex, sub_nonneg.2 this, hez⟩

/-- Grid positions have nonnegative coordinates. -/
theorem grid_positions_nonneg {c : Container3D} {L W H : ℚ} {p : ℚ × ℚ × ℚ}
    (hmem : p ∈ grid_positions c L W H) :
    0 ≤ p.1 ∧ 0 ≤ p.2.1 ∧ 0 ≤ p.2.2 := by
  obtain ⟨zn, _, hp⟩ := concatMap_mem hmem
  obtain ⟨yn, _, hp⟩ := concatMap_mem hp
  obtain ⟨xn, _, rfl⟩ := List.mem_map.1 hp
  exact ⟨Nat.cast_nonneg xn, Nat.cast_nonneg yn, Nat.cast_nonneg zn⟩

/-- Positions returned by any of the three strategies have nonnegative
coordinates over a sane registry. -/
theorem strategies_nonneg {c : Container3D} {placed : List PlacedItem3D}
    {L W H : ℚ} {item : PlacedItem3D} {p : ℚ × ℚ × ℚ}
    (hok : PlacedCoordsOK placed)
    (h : try_corner_placement c placed L W H item = some p ∨
         try_adjacent_placement_improved c placed L W H item = some p ∨
         try_fine_grid_placement c placed L W H item = some p) :
    0 ≤ p.1 ∧ 0 ≤ p.2.1 ∧ 0 ≤ p.2.2 := by
  rcases h with h | h | h
  · unfold try_corner_placement at h
    by_cases hemp : placed.isEmpty
    · rw [if_pos hemp] at h
      by_cases hv : is_valid_position_improved c placed (0, 0, 0) L W H item = true
      · rw [if_pos hv] at h
        cases h
        exact ⟨le_refl 0, le_refl 0, le_refl 0⟩
      · rw [if_neg hv] at h
        cases h
    · rw [if_neg hemp] at h
      exact corner_candidates_nonneg hok
        (mem_sortStable.1 (List.mem_of_find?_eq_some h))
  · exact adjacent_candidates_nonneg hok
      (mem_sortStable.1 (List.mem_of_find?_eq_some h))
  · exact grid_positions_nonneg
      (List.mem_of_mem_take (List.mem_of_find?_eq_some h))

/-- Each orientation's dimensions are drawn from the item's dimensions. -/
theorem orientation_dims {item : PlacedItem3D} {o : Orientation}
    (ho : o ∈ get_orientations_improved item) :
    (o.length = item.length ∨ o.length = item.width ∨ o.length = item.height) ∧
    (o.width = item.length ∨ o.width = item.width ∨ o.width = item.height) ∧
    (o.height = item.length ∨ o.height = item.width ∨ o.height = item.height) := by
  unfold get_orientations_improved at ho
  by_cases hnr : item.non_rotatable = true
  · rw [if_pos hnr] at ho
    simp only [List.mem_singleton] at ho
    subst ho
    exact ⟨Or.inl rfl, Or.inr (Or.inl rfl), Or.inr (Or.inr rfl)⟩
  · rw [if_neg hnr] at ho
    by_cases hcube : ¬(item.length = item.width ∧ item.width = item.height)
    · rw [if_pos hcube] at ho
      simp only [List.mem_append, List.mem_cons, List.mem_singleton,
        List.not_mem_nil, or_false] at ho
      rcases ho with (rfl | rfl) | rfl | rfl <;> simp
    · rw [if_neg hcube] at ho
      simp only [List.mem_cons, List.mem_singleton, List.not_mem_nil, or_false] at ho
      rcases ho with rfl | rfl <;> simp

/-- Orientation generation for a non-rotatable item: exactly the original
dimensions with rotated false. -/
theorem orientations_non_rotatable {item : PlacedItem3D}
    (h : item.non_rotatable = true) :
    get_orientations_improved item =
      [⟨item.length, item.width, item.height, false⟩] := by
  unfold get_orientations_improved
  rw [if_pos h]

end Advanced

namespace Advanced

/-- Facts extracted from a successful position search: the effective
dimensions and rotation come from a generated orientation, the committed
position validates against the current registry, and over a sane registry
the coordinates are nonnegative. -/
theorem find_best_elim {c : Container3D} {placed : List PlacedItem3D}
    {item : PlacedItem3D} {b : Best}
    (h : find_best_position_improved c placed item = some b) :
    (∃ o ∈ get_orientations_improved item,
       b.length = o.length ∧ b.width = o.width ∧ b.height = o.height ∧
       b.rotated = o.rotated) ∧
    is_valid_position_improved c placed (b.x, b.y, b.z)
      b.length b.width b.height item = true ∧
    (PlacedCoordsOK placed → 0 ≤ b.x ∧ 0 ≤ b.y ∧ 0 ≤ b.z) := by
  unfold find_best_position_improved at h
  obtain ⟨o, ho, hb⟩ := findFirst_eq_some h
  by_cases hfits : c.length < o.length ∨ c.width < o.width ∨ c.height < o.height
  · rw [if_pos hfits] at hb
    cases hb
  · rw [if_neg hfits] at hb
    rcases hc : try_corner_placement c placed o.length o.width o.height item with _ | p
    · rw [hc] at hb
      rcases ha : try_adjacent_placement_improved c placed o.length o.width o.height item
        with _ | p
      · rw [ha] at hb
        rcases hg : try_fine_grid_placement c placed o.length o.width o.height item
          with _ | p
        · rw [hg] at hb
          cases hb
        · rw [hg] at hb
          cases hb
          refine ⟨⟨o, ho, rfl, rfl, rfl, rfl⟩, ?_, ?_⟩
          · exact try_grid_valid hg
          · intro hok
            exact strategies_nonneg hok (Or.inr (Or.inr hg))
      · rw [ha] at hb
        cases hb
        refine ⟨⟨o, ho, rfl, rfl, rfl, rfl⟩, ?_, ?_⟩
        · exact try_adjacent_valid ha
        · intro hok
          exact strategies_nonneg hok (Or.inr (Or.inl ha))
    · rw [hc] at hb
      cases hb
      refine ⟨⟨o, ho, rfl, rfl, rfl, rfl⟩, ?_, ?_⟩
      · exact try_corner_valid hc
      · intro hok
        exact strategies_nonneg hok (Or.inl hc)

end Advanced

namespace Advanced

/-- Committing a validated placement preserves the layout invariant. -/
theorem packStep_commit_good {c : Container3D} {placed : List PlacedItem3D}
    {item : PlacedItem3D} {b : Best}
    (hG : Good c placed) (hdims : DimNonneg item)
    (hfind : find_best_position_improved c placed item = some b) :
    Good c (placed ++ [place_item item b]) := by
  have hok : PlacedCoordsOK placed := by
    intro p hp
    have := hG.2 p hp
    exact ⟨this.2.2.1, this.2.1⟩
  obtain ⟨⟨o, ho, hbl, hbw, hbh, _⟩, hvalid, hnn⟩ := find_best_elim hfind
  obtain ⟨hbounds, hcol, hsup⟩ := is_valid_elim hvalid
  obtain ⟨hx0, hy0, hz0⟩ := hnn hok
  have hdimq : DimNonneg (place_item item b) := by
    obtain ⟨hdl, hdw, hdh⟩ := orientation_dims ho
    refine ⟨?_, ?_, ?_⟩
    · show (0 : ℚ) ≤ b.length
      rw [hbl]
      rcases hdl with h | h | h <;> rw [h]
      · exact hdims.1
      · exact hdims.2.1
      · exact hdims.2.2
    · show (0 : ℚ) ≤ b.width
      rw [hbw]
      rcases hdw with h | h | h <;> rw [h]
      · exact hdims.1
      · exact hdims.2.1
      · exact hdims.2.2
    · show (0 : ℚ) ≤ b.height
      rw [hbh]
      rcases hdh with h | h | h <;> rw [h]
      · exact hdims.1
      · exact hdims.2.1
      · exact hdims.2.2
  constructor
  · refine List.pairwise_append.2 ⟨hG.1, List.pairwise_singleton _ _, ?_⟩
    intro a ha q hq
    rw [List.mem_singleton] at hq
    subst hq
    intro hov
    exact hcol a ha ⟨hov.2.1, hov.1, hov.2.2.2.1, hov.2.2.1,
      hov.2.2.2.2.2, hov.2.2.2.2.1⟩
  · intro p hp
    rw [List.mem_append, List.mem_singleton] at hp
    rcases hp with hp | rfl
    · obtain ⟨hft, hdn, hpn, hib, hsup'⟩ := hG.2 p hp
      refine ⟨hft, hdn, hpn, hib, ?_⟩
      intro hz
      obtain ⟨hns, hs⟩ := hsup' hz
      exact ⟨hns, le_trans hs (totalSupport_mono _ _ _ _ _ _ _)⟩
    · refine ⟨rfl, hdimq, ⟨hx0, hy0, hz0⟩, ⟨hbounds.1, hbounds.2.1, hbounds.2.2⟩, ?_⟩
      intro hz
      obtain ⟨hns, hs⟩ := hsup hz
      refine ⟨hns, le_trans hs (totalSupport_mono _ _ _ _ _ _ _)⟩

/-- Structural facts about the placement fold: the output keeps one entry
per pending item, in order, and every output entry is either an untouched
pending item or a pending item with a committed placement applied. -/
theorem pack_fold_origin (c : Container3D) :
    ∀ (pending : List PlacedItem3D) (outs placed : List PlacedItem3D),
    (pending.foldl (packStep c) (outs, placed)).1.length
        = outs.length + pending.length ∧
    (∀ o ∈ (pending.foldl (packStep c) (outs, placed)).1,
       o ∈ outs ∨ ∃ e ∈ pending, o = e ∨
         ∃ pl b, find_best_position_improved c pl e = some b ∧
           o = place_item e b) := by
  intro pending
  induction pending with
  | nil =>
    intro outs placed
    exact ⟨by simp, fun o ho => Or.inl ho⟩
  | cons i rest ih =>
    intro outs placed
    rw [List.foldl_cons]
    rcases hfind : find_best_position_improved c placed i with _ | b
    · have hstep : packStep c (outs, placed) i = (outs ++ [i], placed) := by
        unfold packStep
        rw [hfind]
      rw [hstep]
      obtain ⟨ihlen, ihor⟩ := ih (outs ++ [i]) placed
      constructor
      · rw [ihlen]
        simp only [List.length_append, List.length_cons, List.length_nil]
        omega
      · intro o ho
        rcases ihor o ho with hmem | ⟨e, he, hrel⟩
        · rw [List.mem_append, List.mem_singleton] at hmem
          rcases hmem with hmem | rfl
          · exact Or.inl hmem
          · exact Or.inr ⟨o, List.mem_cons_self o rest, Or.inl rfl⟩
        · exact Or.inr ⟨e, List.mem_cons_of_mem i he, hrel⟩
    · have hstep : packStep c (outs, placed) i
          = (outs ++ [place_item i b], placed ++ [place_item i b]) := by
        unfold packStep
        rw [hfind]
      rw [hstep]
      obtain ⟨ihlen, ihor⟩ := ih (outs ++ [place_item i b]) (placed ++ [place_item i b])
      constructor
      · rw [ihlen]
        simp only [List.length_append, List.length_cons, List.length_nil]
        omega
      · intro o ho
        rcases ihor o ho with hmem | ⟨e, he, hrel⟩
        · rw [List.mem_append, List.mem_singleton] at hmem
          rcases hmem with hmem | rfl
          · exact Or.inl hmem
          · exact Or.inr ⟨i, List.mem_cons_self i rest,
              Or.inr ⟨placed, b, hfind, rfl⟩⟩
        · exact Or.inr ⟨e, List.mem_cons_of_mem i he, hrel⟩

/-- Invariant preservation along the placement fold: the registry stays
Good and is exactly the fitted part of the output. -/
theorem pack_fold_good (c : Container3D) :
    ∀ (pending : List PlacedItem3D) (outs placed : List PlacedItem3D),
    (∀ i ∈ pending, i.fitted = false ∧ DimNonneg i) →
    Good c placed →
    outs.filter (fun p => p.fitted) = placed →
    Good c (pending.foldl (packStep c) (outs, placed)).2 ∧
    (pending.foldl (packStep c) (outs, placed)).1.filter (fun p => p.fitted)
        = (pending.foldl (packStep c) (outs, placed)).2 := by
  intro pending
  induction pending with
  | nil =>
    intro outs placed _ hG hfil
    exact ⟨hG, hfil⟩
  | cons i rest ih =>
    intro outs placed hpend hG hfil
    have hi := hpend i (List.mem_cons_self i rest)
    have hrest : ∀ j ∈ rest, j.fitted = false ∧ DimNonneg j := by
      intro j hj
      exact hpend j (List.mem_cons_of_mem i hj)
    rw [List.foldl_cons]
    rcases hfind : find_best_position_improved c placed i with _ | b
    · have hstep : packStep c (outs, placed) i = (outs ++ [i], placed) := by
        unfold packStep
        rw [hfind]
      rw [hstep]
      refine ih (outs ++ [i]) placed hrest hG ?_
      rw [List.filter_append, hfil]
      have : [i].filter (fun p => p.fitted) = [] := by
        simp [List.filter, hi.1]
      rw [this, List.append_nil]
    · have hstep : packStep c (outs, placed) i
          = (outs ++ [place_item i b], placed ++ [place_item i b]) := by
        unfold packStep
        rw [hfind]
      rw [hstep]
      refine ih (outs ++ [place_item i b]) (placed ++ [place_item i b]) hrest
        (packStep_commit_good hG hi.2 hfind) ?_
      rw [List.filter_append, hfil]
      have : [place_item i b].filter (fun p => p.fitted) = [place_item i b] := by
        simp [List.filter, place_item]
      rw [this]

end Advanced

namespace Advanced

/-- Every expanded unit item comes from a spec and an index below its
quantity. -/
theorem expand_items_mem {items : List CargoItem3D} {u : PlacedItem3D}
    (h : u ∈ expand_items items) :
    ∃ s ∈ items, ∃ k, k < s.quantity ∧ u = mkUnit s k := by
  obtain ⟨s, hs, hu⟩ := concatMap_mem h
  obtain ⟨k, hk, rfl⟩ := List.mem_map.1 hu
  exact ⟨s, hs, k, List.mem_range.1 hk, rfl⟩

/-- Expansion yields one unit item per unit of quantity. -/
theorem expand_items_length (items : List CargoItem3D) :
    (expand_items items).length = (items.map (fun s => s.quantity)).sum := by
  unfold expand_items
  rw [concatMap_length]
  simp

/-- The fitted part of the engine output satisfies the layout invariant. -/
theorem advanced_good (c : Container3D) (items : List CargoItem3D)
    (hdims : ∀ it ∈ items, 0 ≤ it.length ∧ 0 ≤ it.width ∧ 0 ≤ it.height) :
    Good c ((advanced_3d_packing c items).filter (fun p => p.fitted)) := by
  unfold advanced_3d_packing
  have hpend : ∀ i ∈ sort_improved (expand_items items),
      i.fitted = false ∧ DimNonneg i := by
    intro i hi
    have hi' : i ∈ expand_items items := by
      unfold sort_improved at hi
      exact mem_sortStable.1 hi
    obtain ⟨s, hs, k, _, rfl⟩ := expand_items_mem hi'
    exact ⟨rfl, (hdims s hs).1, (hdims s hs).2.1, (hdims s hs).2.2⟩
  have h := pack_fold_good c (sort_improved (expand_items items)) [] []
    hpend ⟨List.Pairwise.nil, by simp⟩ rfl
  rw [h.2]
  exact h.1

/-- Every output entry of the engine is an expanded unit item, either
untouched or with exactly one committed placement applied. -/
theorem advanced_origin (c : Container3D) (items : List CargoItem3D) :
    ∀ o ∈ advanced_3d_packing c items,
      ∃ e ∈ expand_items items, o = e ∨
        ∃ pl b, find_best_position_improved c pl e = some b ∧
          o = place_item e b := by
  intro o ho
  unfold advanced_3d_packing at ho
  have h := (pack_fold_origin c (sort_improved (expand_items items)) [] []).2 o ho
  rcases h with h | ⟨e, he, hrel⟩
  · simp at h
  · refine ⟨e, ?_, hrel⟩
    unfold sort_improved at he
    exact mem_sortStable.1 he

/-- The engine output has one entry per unit of input quantity. -/
theorem advanced_length (c : Container3D) (items : List CargoItem3D) :
    (advanced_3d_packing c items).length = (items.map (fun s => s.quantity)).sum := by
  unfold advanced_3d_packing
  rw [(pack_fold_origin c (sort_improved (expand_items items)) [] []).1]
  simp only [List.length_nil, Nat.zero_add]
  unfold sort_improved
  rw [length_sortStable, expand_items_length]

end Advanced

/-- Equal character data gives equal strings. -/
theorem string_eq_of_data {s t : String} (h : s.data = t.data) : s = t := by
  cases s
  cases t
  exact congrArg String.mk h

/-- Cancellation of underscore-free prefixes before an underscore. -/
theorem und_append_inj : ∀ (a : List Char), ('_' : Char) ∉ a →
    ∀ (b : List Char), ('_' : Char) ∉ b →
    ∀ (u v : List Char), a ++ '_' :: u = b ++ '_' :: v → a = b := by
  intro a
  induction a with
  | nil =>
    intro _ b hb u v h
    cases b with
    | nil => rfl
    | cons c cs =>
      simp only [List.nil_append, List.cons_append, List.cons.injEq] at h
      exact absurd (h.1 ▸ List.mem_cons_self c cs) hb
  | cons c cs ih =>
    intro ha b hb u v h
    cases b with
    | nil =>
      simp only [List.cons_append, List.nil_append, List.cons.injEq] at h
      exact absurd (h.1 ▸ List.mem_cons_self c cs) ha
    | cons d ds =>
      simp only [List.cons_append, List.cons.injEq] at h
      have hcs := ih (fun hm => ha (List.mem_cons_of_mem c hm)) ds
        (fun hm => hb (List.mem_cons_of_mem d hm)) u v h.2
      rw [h.1, hcs]

namespace Advanced

/-- Character data of a derived id. -/
theorem id_suffix_data (sid r : String) :
    (sid ++ "_" ++ r).data = sid.data ++ '_' :: r.data := by
  rw [String.data_append, String.data_append]
  rw [List.append_assoc]
  rfl

/-- Derived id of a unit from a quantity-many spec. -/
theorem mkUnit_id_of_many {s : CargoItem3D} (h : 1 < s.quantity) (k : ℕ) :
    (mkUnit s k).id = s.id ++ "_" ++ Nat.repr (k + 1) := by
  simp [mkUnit, h]

/-- Derived id of a unit from a single-quantity spec. -/
theorem mkUnit_id_of_one {s : CargoItem3D} (h : ¬1 < s.quantity) (k : ℕ) :
    (mkUnit s k).id = s.id := by
  simp [mkUnit, h]

end Advanced

namespace Advanced

/-- Overlap beyond the 0.01 tolerance implies open-box overlap. -/
theorem overlapsTol_imp_Overlap {a b : PlacedItem3D}
    (h : overlapsTol a b = true) : Overlap a b := by
  unfold overlapsTol at h
  split at h
  · cases h
  · next hc =>
    push_neg at hc
    obtain ⟨h1, h2, h3, h4, h5, h6⟩ := hc
    have hq : (0 : ℚ) < mkRat 1 100 := by decide
    refine ⟨by linarith, by linarith, by linarith, by linarith, by linarith, by linarith⟩

/-- C1.  For every packing run of the advanced engine and every pair of
distinct fitted items in its output, the axis-aligned boxes do not overlap
beyond the 0.01 numerical tolerance (the engine in fact guarantees strict
non-overlap, which implies this). -/
theorem claim_C1_no_overlap (c : Container3D) (items : List CargoItem3D)
    (hdims : ∀ it ∈ items, 0 ≤ it.length ∧ 0 ≤ it.width ∧ 0 ≤ it.height)
    (a b : PlacedItem3D)
    (ha : a ∈ advanced_3d_packing c items) (hb : b ∈ advanced_3d_packing c items)
    (hfa : a.fitted = true) (hfb : b.fitted = true) (hne : a ≠ b) :
    overlapsTol a b = false := by
  have hG := advanced_good c items hdims
  have hpw := hG.1
  have ha' : a ∈ (advanced_3d_packing c items).filter (fun p => p.fitted) :=
    List.mem_filter.2 ⟨ha, hfa⟩
  have hb' : b ∈ (advanced_3d_packing c items).filter (fun p => p.fitted) :=
    List.mem_filter.2 ⟨hb, hfb⟩
  have hno : ¬Overlap a b := List.Pairwise.forall Overlap_symm hpw ha' hb' hne
  rw [Bool.eq_false_iff]
  intro hT
  exact hno (overlapsTol_imp_Overlap hT)

/-- C2 (amended).  In the advanced engine every fitted item above the 0.1
ground tolerance is stackable and the total horizontal overlap with fitted
items whose top face is at its level (within tolerance) and which are not
non_stackable covers at least half its footprint; non_stackable items
contribute nothing to the support sum, so no non_stackable item bears the
load. -/
theorem claim_C2_support (c : Container3D) (items : List CargoItem3D)
    (hdims : ∀ it ∈ items, 0 ≤ it.length ∧ 0 ≤ it.width ∧ 0 ≤ it.height)
    (o : PlacedItem3D) (ho : o ∈ advanced_3d_packing c items)
    (hf : o.fitted = true) (hz : (mkRat 1 10) < o.z) :
    o.non_stackable = false ∧
    o.length * o.width * (mkRat 1 2) ≤
      totalSupport ((advanced_3d_packing c items).filter (fun p => p.fitted))
        o.x o.y o.z o.length o.width := by
  have hG := advanced_good c items hdims
  have ho' : o ∈ (advanced_3d_packing c items).filter (fun p => p.fitted) :=
    List.mem_filter.2 ⟨ho, hf⟩
  exact (hG.2 o ho').2.2.2.2 hz

/-- C3.  Every fitted item of the advanced engine lies inside the container:
nonnegative coordinates and extents bounded by the container dimensions. -/
theorem claim_C3_bounds (c : Container3D) (items : List CargoItem3D)
    (hdims : ∀ it ∈ items, 0 ≤ it.length ∧ 0 ≤ it.width ∧ 0 ≤ it.height)
    (o : PlacedItem3D) (ho : o ∈ advanced_3d_packing c items)
    (hf : o.fitted = true) :
    (0 ≤ o.x ∧ o.x + o.length ≤ c.length) ∧
    (0 ≤ o.y ∧ o.y + o.width ≤ c.width) ∧
    (0 ≤ o.z ∧ o.z + o.height ≤ c.height) := by
  have hG := advanced_good c items hdims
  have ho' : o ∈ (advanced_3d_packing c items).filter (fun p => p.fitted) :=
    List.mem_filter.2 ⟨ho, hf⟩
  obtain ⟨_, _, hpn, hib, _⟩ := hG.2 o ho'
  exact ⟨⟨hpn.1, hib.1⟩, ⟨hpn.2.1, hib.2.1⟩, ⟨hpn.2.2, hib.2.2⟩⟩

end Advanced

namespace Advanced

/-- C8.  Every output item of the advanced engine derived from a
non_rotatable spec keeps the spec's original dimensions and has
rotated = false; in particular this holds for every fitted such item. -/
theorem claim_C8_non_rotatable (c : Container3D) (items : List CargoItem3D)
    (o : PlacedItem3D) (ho : o ∈ advanced_3d_packing c items)
    (hnr : o.non_rotatable = true) :
    o.rotated = false ∧ ∃ s ∈ items, s.non_rotatable = true ∧
      o.length = s.length ∧ o.width = s.width ∧ o.height = s.height := by
  obtain ⟨e, he, hrel⟩ := advanced_origin c items o ho
  obtain ⟨s, hs, k, _, rfl⟩ := expand_items_mem he
  rcases hrel with rfl | ⟨pl, b, hfind, rfl⟩
  · exact ⟨rfl, s, hs, hnr, rfl, rfl, rfl⟩
  · have henr : (mkUnit s k).non_rotatable = true := hnr
    obtain ⟨⟨orn, hor, hbl, hbw, hbh, hbr⟩, _, _⟩ := find_best_elim hfind
    rw [orientations_non_rotatable henr, List.mem_singleton] at hor
    subst hor
    refine ⟨?_, s, hs, henr, ?_, ?_, ?_⟩
    · show b.rotated = false
      rw [hbr]
    · show b.length = s.length
      rw [hbl]
      rfl
    · show b.width = s.width
      rw [hbw]
      rfl
    · show b.height = s.height
      rw [hbh]
      rfl

/-- C10.  Every unfitted output item of the advanced engine keeps exactly
its initialization values: position (0,0,0), rotated false, and the
original spec dimensions; placement fields are only written on commit. -/
theorem claim_C10_unfitted_frame (c : Container3D) (items : List CargoItem3D)
    (o : PlacedItem3D) (ho : o ∈ advanced_3d_packing c items)
    (hf : o.fitted = false) :
    o.x = 0 ∧ o.y = 0 ∧ o.z = 0 ∧ o.rotated = false ∧
      ∃ s ∈ items, o.length = s.length ∧ o.width = s.width ∧
        o.height = s.height := by
  obtain ⟨e, he, hrel⟩ := advanced_origin c items o ho
  obtain ⟨s, hs, k, _, rfl⟩ := expand_items_mem he
  rcases hrel with rfl | ⟨pl, b, hfind, rfl⟩
  · exact ⟨rfl, rfl, rfl, rfl, s, hs, rfl, rfl, rfl⟩
  · simp [place_item] at hf

/-- C4 (amended).  The advanced engine conserves items: its output has
exactly one unit item per unit of input quantity. -/
theorem claim_C4_conservation (c : Container3D) (items : List CargoItem3D) :
    (advanced_3d_packing c items).length = (items.map (fun s => s.quantity)).sum :=
  advanced_length c items

/-- C9 (amended).  Expansion yields one unit item per unit of quantity, and
when spec ids contain no underscore, units derived from specs with distinct
ids have pairwise distinct derived ids; without that restriction the
"{id}_{index}" scheme can collide across specs. -/
theorem claim_C9_expansion_ids (items : List CargoItem3D)
    (hus : ∀ s ∈ items, ('_' : Char) ∉ s.id.data) :
    (expand_items items).length = (items.map (fun s => s.quantity)).sum ∧
    ∀ s ∈ items, ∀ t ∈ items, s.id ≠ t.id →
      ∀ j, j < s.quantity → ∀ k, k < t.quantity →
        (mkUnit s j).id ≠ (mkUnit t k).id := by
  refine ⟨expand_items_length items, ?_⟩
  intro s hs t ht hne j _ k _ heq
  have hsu := hus s hs
  have htu := hus t ht
  by_cases hsq : 1 < s.quantity
  · by_cases htq : 1 < t.quantity
    · rw [mkUnit_id_of_many hsq, mkUnit_id_of_many htq] at heq
      have hdata : s.id.data ++ '_' :: (Nat.repr (j + 1)).data
          = t.id.data ++ '_' :: (Nat.repr (k + 1)).data := by
        have h2 := congrArg String.data heq
        rwa [id_suffix_data, id_suffix_data] at h2
      exact hne (string_eq_of_data (und_append_inj s.id.data hsu t.id.data htu _ _ hdata))
    · rw [mkUnit_id_of_many hsq, mkUnit_id_of_one htq] at heq
      apply htu
      have hmem : ('_' : Char) ∈ (s.id ++ "_" ++ Nat.repr (j + 1)).data := by
        rw [id_suffix_data]
        exact List.mem_append_right _ (List.mem_cons_self _ _)
      rwa [heq] at hmem
  · by_cases htq : 1 < t.quantity
    · rw [mkUnit_id_of_one hsq, mkUnit_id_of_many htq] at heq
      apply hsu
      have hmem : ('_' : Char) ∈ (t.id ++ "_" ++ Nat.repr (k + 1)).data := by
        rw [id_suffix_data]
        exact List.mem_append_right _ (List.mem_cons_self _ _)
      rwa [← heq] at hmem
    · rw [mkUnit_id_of_one hsq, mkUnit_id_of_one htq] at heq
      exact hne heq

end Advanced

namespace Advanced

/-- C5 (code bug).  At equal volume and equal weight the sort key of
advanced_packing.py lines 34-38 places the elongated box (aspect-ratio
distortion 4) before the cube (distortion 1), the opposite of the
documented "prefer cube-like" policy: the key sorts min/max ascending,
which is distortion descending. -/
theorem claim_C5_sort_order :
    Scen.uCube.length * Scen.uCube.width * Scen.uCube.height
        = Scen.uLong.length * Scen.uLong.width * Scen.uLong.height ∧
    pyDiv (max Scen.uCube.length (max Scen.uCube.width Scen.uCube.height))
        (min Scen.uCube.length (min Scen.uCube.width Scen.uCube.height)) <
      pyDiv (max Scen.uLong.length (max Scen.uLong.width Scen.uLong.height))
        (min Scen.uLong.length (min Scen.uLong.width Scen.uLong.height)) ∧
    Scen.uCube.weight = Scen.uLong.weight ∧
    sort_improved [Scen.uCube, Scen.uLong] = [Scen.uLong, Scen.uCube] := by
  decide

/-- C6 (counterexample).  A single 100 kg item is fitted into a container
whose max_weight is 1 kg: the fitted weight exceeds the limit, so the
weight-capacity invariant fails on the code. -/
theorem claim_C6_counterexample :
    Scen.cW.max_weight <
      (((advanced_3d_packing Scen.cW [Scen.specHeavy]).filter
        (fun p => p.fitted)).map (fun p => p.weight)).sum := by
  decide

/-- C6 (amended).  The engine never reads max_weight: its output is
identical for any two containers differing only in max_weight, so weight
capacity is neither checked at commit time nor pre-filtered. -/
theorem claim_C6_max_weight_ignored (l w h m1 m2 : ℚ)
    (items : List CargoItem3D) :
    advanced_3d_packing ⟨l, w, h, m1⟩ items
      = advanced_3d_packing ⟨l, w, h, m2⟩ items := rfl

/-- C4 (counterexample).  Two 8-cubes are requested in a 10-container, so
the volume ratio 1.024 triggers the strict volume filter; the second unit
is dropped from the run entirely and the output has one item, not two:
conservation fails for the optimized engine. -/
theorem claim_C4_counterexample :
    (Opt.volume_optimized_3d_packing Scen.c10 [Scen.specS]).toOption.map
        List.length = some 1 ∧
    ([Scen.specS].map (fun s => s.quantity)).sum = 2 := by
  decide

/-- C7 (code bug).  A rotatable 7 x 7 x 12 item in a 12 x 12 x 8 container
passes the dimensional pre-filter (it fits lying down) but both
orientations tried by get_orientations_hybrid are too tall and its aspect
ratio 12/7 is at most 2, so the orientation list ends with Python None and
find_best_position_optimized subscripts it: the run aborts with a
TypeError instead of marking the item unfitted. -/
theorem claim_C7_orientation_crash :
    Opt.volume_optimized_3d_packing Scen.cErr [Scen.specE]
      = Except.error () := rfl

/-- C2 (counterexample).  In advanced_bin_packing of calculations.py the
grid fallback checks only collisions and the non_stackable flag: item B is
committed at z = 20 directly on top of the non_stackable full-floor slab A,
with zero support area from stackable items, violating the support
invariant at any positive support fraction, and the non_stackable item A
bears its load. -/
theorem claim_C2_counterexample :
    ((Calc.advanced_bin_packing Scen.cC [Scen.itemA, Scen.itemB]).map
        (fun p => (p.id, p.x, p.y, p.z, p.fitted)))
      = [("A", 0, 0, 0, true), ("B", 0, 0, 20, true)] ∧
    (mkRat 1 10 : ℚ) < 20 ∧
    Calc.support_area_calc
      ((Calc.advanced_bin_packing Scen.cC [Scen.itemA, Scen.itemB]).filter
        (fun p => p.fitted)) 0 0 20 40 40 = 0 ∧
    ((0 : ℚ) < 40 * 40 * mkRat 7 10 ∧ (0 : ℚ) < 40 * 40 * mkRat 1 2) ∧
    Scen.itemA.non_stackable = true ∧ Scen.itemA.z + Scen.itemA.height = 20 := by
  decide

/-- C9 (counterexample).  Two specs with distinct ids, "a_1" (quantity 1)
and "a" (quantity 2), expand to unit ids a_1, a_1, a_2: the derived
identities collide across specs. -/
theorem claim_C9_counterexample :
    Scen.specA1.id ≠ Scen.specA.id ∧
    (expand_items [Scen.specA1, Scen.specA]).map (fun p => p.id)
      = ["a_1", "a_1", "a_2"] ∧
    ¬((expand_items [Scen.specA1, Scen.specA]).map (fun p => p.id)).Nodup := by
  decide

/-- Witness for C1 at a concrete run with two fitted cubes. -/
theorem claim_C1_witness : overlapsTol Scen.box1 Scen.box2 = false :=
  claim_C1_no_overlap Scen.c10 [Scen.specBox] (by decide) Scen.box1 Scen.box2
    (by decide) (by decide) rfl rfl (by decide)

/-- Witness for C2 at a concrete run with a stacked slab. -/
theorem claim_C2_witness :
    Scen.slab2.non_stackable = false ∧
    Scen.slab2.length * Scen.slab2.width * mkRat 1 2 ≤
      totalSupport ((advanced_3d_packing Scen.c10 [Scen.specSlab]).filter
        (fun p => p.fitted)) Scen.slab2.x Scen.slab2.y Scen.slab2.z
        Scen.slab2.length Scen.slab2.width :=
  claim_C2_support Scen.c10 [Scen.specSlab] (by decide) Scen.slab2
    (by decide) rfl (by decide)

/-- Witness for C3 at a concrete fitted item. -/
theorem claim_C3_witness :
    (0 ≤ Scen.box1.x ∧ Scen.box1.x + Scen.box1.length ≤ Scen.c10.length) ∧
    (0 ≤ Scen.box1.y ∧ Scen.box1.y + Scen.box1.width ≤ Scen.c10.width) ∧
    (0 ≤ Scen.box1.z ∧ Scen.box1.z + Scen.box1.height ≤ Scen.c10.height) :=
  claim_C3_bounds Scen.c10 [Scen.specBox] (by decide) Scen.box1 (by decide) rfl

/-- Witness for C8 at a concrete fitted non-rotatable item. -/
theorem claim_C8_witness :
    Scen.nrOut.rotated = false ∧ ∃ s ∈ [Scen.specNR], s.non_rotatable = true ∧
      Scen.nrOut.length = s.length ∧ Scen.nrOut.width = s.width ∧
      Scen.nrOut.height = s.height :=
  claim_C8_non_rotatable Scen.c10 [Scen.specNR] Scen.nrOut (by decide) rfl

/-- Witness for C9 at two underscore-free specs. -/
theorem claim_C9_witness :
    (expand_items [Scen.specU, Scen.specV]).length = 3 ∧
    (mkUnit Scen.specU 0).id ≠ (mkUnit Scen.specV 1).id := by
  have h := claim_C9_expansion_ids [Scen.specU, Scen.specV] (by decide)
  refine ⟨h.1.trans (by decide), ?_⟩
  exact h.2 Scen.specU (by decide) Scen.specV (by decide) (by decide)
    0 (by decide) 1 (by decide)

/-- Witness for C10 at a concrete unfitted oversized item. -/
theorem claim_C10_witness :
    Scen.bigOut.x = 0 ∧ Scen.bigOut.y = 0 ∧ Scen.bigOut.z = 0 ∧
    Scen.bigOut.rotated = false ∧ ∃ s ∈ [Scen.specBig],
      Scen.bigOut.length = s.length ∧ Scen.bigOut.width = s.width ∧
      Scen.bigOut.height = s.height :=
  claim_C10_unfitted_frame Scen.c10 [Scen.specBig] Scen.bigOut (by decide) rfl

end Advanced
